import Mathlib

/-!
Verification of the tablet-based data-placement subsystem
(`locator/tablets.cc`, `locator/tablets.hh`).

The embedding models:
 * the token space (a shallow model of `dht::token`: a minimum sentinel
   strictly below all key tokens, plus 64-bit key tokens in their biased
   unsigned representation),
 * the tablet record types (`tablet_replica`, `tablet_info`,
   `tablet_transition_info`),
 * `tablet_map` with its token arithmetic and lookup operations,
 * `tablet_metadata`,
 * the tablet-aware effective replication map (`has_pending_ranges`,
   the token-range splitter),
 * the tablet-aware replication-strategy option validation.

Fatal internal errors, invalid-id logic errors, recoverable not-found
errors and user-facing configuration errors are distinguished by an
explicit error type carried in `Except`.
-/

namespace Tablets

abbrev host_id := Nat
abbrev shard_id := Nat
abbrev table_id := Nat

/-- Modelled from the spec: the token space. A token is "a totally ordered
value from a fixed, wrap-free conceptual space (treat as a signed
fixed-width integer with defined minimum/maximum sentinels)". `minimum` is
the sentinel strictly below every key-space token (`dht::minimum_token()`),
and `key n` is a 64-bit key token in its biased unsigned representation
(`n < 2^64`; `key 0` is the least token of the key space). -/
inductive Token where
  | minimum : Token
  | key : Nat → Token
deriving DecidableEq, Repr

/-- Strict order on tokens: the minimum sentinel is below every key token,
and key tokens compare by their (biased) numeric value. -/
def Token.lt : Token → Token → Bool
  | .minimum, .minimum => false
  | .minimum, .key _ => true
  | .key _, .minimum => false
  | .key a, .key b => decide (a < b)

/-- Non-strict order on tokens. -/
def Token.le : Token → Token → Bool
  | .minimum, _ => true
  | .key _, .minimum => false
  | .key a, .key b => decide (a ≤ b)

/-- Modelled from the spec: `dht::minimum_token()`, the sentinel below the
whole key space (used as the exclusive lower bound of the first tablet's
range). -/
def minimum_token : Token := .minimum

/-- Modelled from the spec: `dht::first_token()`, the least token of the
key space ("the space's minimum sentinel" value of the signed fixed-width
integer space); in the biased representation this is `key 0`. -/
def first_token : Token := .key 0

/-- Modelled from the spec: `dht::next_token`, the successor ("next value")
of a token. The successor of the minimum sentinel is the least key token. -/
def next_token : Token → Token
  | .minimum => .key 0
  | .key n => .key (n + 1)

/-- Modelled from the spec: `dht::compaction_group_of`, the deterministic
map from a token to a group index obtained "by taking the top
`log2_tablets` bits of a space-filling transform of the token" (the biased
64-bit representation). With zero bits requested the group is 0; the
minimum sentinel belongs to group 0. -/
def compaction_group_of (log2 : Nat) (t : Token) : Nat :=
  if log2 = 0 then 0
  else
    match t with
    | .minimum => 0
    | .key n => n >>> (64 - log2)

/-- Modelled from the spec: `dht::last_token_of_compaction_group`, the
closed-form largest token of a group: all the top bits fixed to the group
index and all remaining low bits set. -/
def last_token_of_compaction_group (log2 : Nat) (group : Nat) : Token :=
  .key (((group + 1) <<< (64 - log2)) - 1)

/-- Fuel-driven worker for `log2ceil`: the ceiling of the base-2 logarithm
by repeated halving (rounding the argument up at each step). -/
def log2ceilGo : Nat → Nat → Nat
  | _, 0 => 0
  | n, fuel + 1 => if n ≤ 1 then 0 else log2ceilGo ((n + 1) / 2) fuel + 1

/-- Modelled from the spec: `log2ceil` (the count's binary logarithm,
rounded up), used by the `tablet_map` constructor. -/
def log2ceil (n : Nat) : Nat := log2ceilGo n n

/-- The error taxonomy of the layer: recoverable not-found
(`std::runtime_error` from `tablet_metadata::get_tablet_map`), fatal
invariant violation (`on_internal_error`), invalid-id logic error
(`std::logic_error` from `check_tablet_id`), and user-facing configuration
error (`exceptions::configuration_exception`). -/
inductive tablet_error where
  | not_found : String → tablet_error
  | internal_error : String → tablet_error
  | logic_error : String → tablet_error
  | configuration_error : String → tablet_error
deriving DecidableEq, Repr

/-- `locator::tablet_replica`: a (host identity, shard index) pair. -/
structure tablet_replica where
  host : host_id
  shard : shard_id
deriving DecidableEq, Repr

/-- `locator::tablet_info`: the tablet's current replica set. -/
structure tablet_info where
  replicas : List tablet_replica
deriving DecidableEq, Repr

/-- `locator::tablet_transition_info`: the replica set the tablet is moving
to, and the single pending replica being populated. -/
structure tablet_transition_info where
  next : List tablet_replica
  pending_replica : tablet_replica
deriving DecidableEq, Repr

/-- `locator::tablet_map`: a sequence of `tablet_info` indexed by tablet
id, the stored `log2` of the tablet count, and a sparse association of
tablet ids to transition info (the `_transitions` unordered map, modelled
as an association list). -/
structure tablet_map where
  tablets : List tablet_info
  log2_tablets : Nat
  transitions : List (Nat × tablet_transition_info)
deriving DecidableEq, Repr

def tablet_map.tablet_count (m : tablet_map) : Nat := m.tablets.length

def tablet_map.first_tablet (_m : tablet_map) : Nat := 0

def tablet_map.last_tablet (m : tablet_map) : Nat := m.tablet_count - 1

/-- `tablet_map::tablet_map(size_t)`: fails with a fatal internal error
when the requested count is not `2 ^ log2ceil(count)`, otherwise allocates
`count` default (empty-replica-set) tablets. -/
def tablet_map.make (tablet_count : Nat) : Except tablet_error tablet_map :=
  let log2 := log2ceil tablet_count
  if tablet_count ≠ 2 ^ log2 then
    .error (.internal_error "Tablet count not a power of 2")
  else
    .ok { tablets := List.replicate tablet_count { replicas := [] },
          log2_tablets := log2,
          transitions := [] }

/-- `tablet_map::check_tablet_id`: a `std::logic_error` when the id is out
of `[0, tablet_count)`. -/
def tablet_map.check_tablet_id (m : tablet_map) (id : Nat) : Except tablet_error Unit :=
  if m.tablet_count ≤ id then .error (.logic_error "Invalid tablet id") else .ok ()

/-- `tablet_map::get_tablet_info`: checked indexed lookup. -/
def tablet_map.get_tablet_info (m : tablet_map) (id : Nat) : Except tablet_error tablet_info :=
  match m.check_tablet_id id with
  | .error e => .error e
  | .ok _ => .ok (m.tablets.getD id { replicas := [] })

/-- `tablet_map::get_tablet_id`: the tablet owning a token. -/
def tablet_map.get_tablet_id (m : tablet_map) (t : Token) : Nat :=
  compaction_group_of m.log2_tablets t

/-- `tablet_map::get_last_token`: the largest token owned by a tablet;
checks the id first. -/
def tablet_map.get_last_token (m : tablet_map) (id : Nat) : Except tablet_error Token :=
  match m.check_tablet_id id with
  | .error e => .error e
  | .ok _ => .ok (last_token_of_compaction_group m.log2_tablets id)

/-- `tablet_map::get_first_token`: the first tablet's first token is
`dht::first_token()`; any other tablet's first token is the successor of
the previous tablet's last token. -/
def tablet_map.get_first_token (m : tablet_map) (id : Nat) : Except tablet_error Token :=
  if id = m.first_tablet then .ok first_token
  else (m.get_last_token (id - 1)).map next_token

/-- A token interval with explicit bound inclusivity, as built by
`dht::token_range::make`. -/
structure token_bound where
  value : Token
  inclusive : Bool
deriving DecidableEq, Repr

structure token_range where
  left : token_bound
  right : token_bound
deriving DecidableEq, Repr

/-- Membership of a token in a range, respecting bound inclusivity. -/
def token_range.contains (r : token_range) (t : Token) : Bool :=
  (if r.left.inclusive then Token.le r.left.value t else Token.lt r.left.value t)
    && (if r.right.inclusive then Token.le t r.right.value else Token.lt t r.right.value)

/-- `tablet_map::get_token_range`: the first tablet's range is
`(minimum_token, last_token(0)]`; tablet `id > 0` owns
`(last_token(id-1), last_token(id)]`. -/
def tablet_map.get_token_range (m : tablet_map) (id : Nat) : Except tablet_error token_range :=
  if id = m.first_tablet then
    match m.get_last_token id with
    | .error e => .error e
    | .ok l =>
      .ok { left := { value := minimum_token, inclusive := false },
            right := { value := l, inclusive := true } }
  else
    match m.get_last_token (id - 1) with
    | .error e => .error e
    | .ok p =>
      match m.get_last_token id with
      | .error e => .error e
      | .ok l =>
        .ok { left := { value := p, inclusive := false },
              right := { value := l, inclusive := true } }

/-- `tablet_map::get_tablet_transition_info`: sparse probe of the
transition map; absent entry gives no result (the implementation performs
no id validation). -/
def tablet_map.get_tablet_transition_info (m : tablet_map) (id : Nat) :
    Option tablet_transition_info :=
  match m.transitions.find? (fun p => p.1 == id) with
  | some p => some p.2
  | none => none

/-- `tablet_map::set_tablet`: in-place overwrite of one tablet slot. -/
def tablet_map.set_tablet (m : tablet_map) (id : Nat) (info : tablet_info) :
    Except tablet_error tablet_map :=
  match m.check_tablet_id id with
  | .error e => .error e
  | .ok _ => .ok { m with tablets := m.tablets.set id info }

/-- `tablet_map::set_tablet_transition_info`: insert-or-assign into the
transition map. -/
def tablet_map.set_tablet_transition_info (m : tablet_map) (id : Nat)
    (info : tablet_transition_info) : Except tablet_error tablet_map :=
  match m.check_tablet_id id with
  | .error e => .error e
  | .ok _ =>
    if (m.transitions.find? (fun p => p.1 == id)).isSome then
      let updated := m.transitions.map (fun p => if p.1 == id then (id, info) else p)
      .ok { m with transitions := updated }
    else
      .ok { m with transitions := m.transitions ++ [(id, info)] }

/-- `tablet_map::get_shard`: scan the current replicas for the host; if
absent and a transition's pending replica matches, use it; else no result. -/
def tablet_map.get_shard (m : tablet_map) (tid : Nat) (host : host_id) :
    Except tablet_error (Option shard_id) :=
  match m.get_tablet_info tid with
  | .error e => .error e
  | .ok info =>
    match info.replicas.find? (fun r => r.host == host) with
    | some r => .ok (some r.shard)
    | none =>
      match m.get_tablet_transition_info tid with
      | some tinfo =>
        if tinfo.pending_replica.host == host then
          .ok (some tinfo.pending_replica.shard)
        else
          .ok none
      | none => .ok none

/-- `tablet_map::next_tablet`: the following tablet id, or none after the
last tablet. -/
def tablet_map.next_tablet (m : tablet_map) (t : Nat) : Option Nat :=
  if t = m.last_tablet then none else some (t + 1)

/-- `locator::tablet_metadata`: a mapping from table identity to
`tablet_map` (the `_tablets` unordered map, modelled as an association
list with unique keys maintained by `set_tablet_map`). -/
structure tablet_metadata where
  tablets : List (table_id × tablet_map)
deriving DecidableEq

/-- `tablet_metadata::get_tablet_map`: lookup by table identity; absence
is the recoverable not-found condition (`std::runtime_error`), never an
internal error. -/
def tablet_metadata.get_tablet_map (md : tablet_metadata) (id : table_id) :
    Except tablet_error tablet_map :=
  match md.tablets.find? (fun p => p.1 == id) with
  | some p => .ok p.2
  | none => .error (.not_found "Tablet map not found for table")

/-- `tablet_metadata::set_tablet_map`: insert-or-assign by table identity. -/
def tablet_metadata.set_tablet_map (md : tablet_metadata) (id : table_id)
    (map : tablet_map) : tablet_metadata :=
  if (md.tablets.find? (fun p => p.1 == id)).isSome then
    { tablets := md.tablets.map (fun p => if p.1 == id then (id, map) else p) }
  else
    { tablets := md.tablets ++ [(id, map)] }

/-- Whitespace as recognized by `std::isspace` in the default locale. -/
def isSpaceChar (c : Char) : Bool :=
  c = ' ' || c = '\t' || c = '\n' || c = '\x0d' || c = '\x0b' || c = '\x0c'

def skipWs : List Char → List Char
  | [] => []
  | c :: rest => if isSpaceChar c then skipWs rest else c :: rest

def digitsLoop : List Char → Nat → Nat
  | [], acc => acc
  | c :: rest, acc =>
    if c.isDigit then digitsLoop rest (acc * 10 + (c.toNat - 48)) else acc

/-- The numeric value of a maximal leading digit run; none when the first
character is not a digit. Characters after the digit run are ignored. -/
def digitsValue : List Char → Option Nat
  | [] => none
  | c :: rest => if c.isDigit then some (digitsLoop rest (c.toNat - 48)) else none

/-- A model of `std::stol` (base 10): skip leading whitespace, accept an
optional sign, require at least one digit (`invalid_argument` otherwise),
ignore trailing characters, and fail with `out_of_range` when the value
does not fit a signed 64-bit `long`. -/
def stol (s : String) : Except String Int :=
  let cs := skipWs s.data
  let signed : Bool × List Char :=
    match cs with
    | '-' :: r => (true, r)
    | '+' :: r => (false, r)
    | _ => (false, cs)
  match digitsValue signed.2 with
  | none => .error "invalid_argument"
  | some v =>
    let z : Int := if signed.1 then -(v : Int) else (v : Int)
    if z < -(2 ^ 63) || z > 2 ^ 63 - 1 then .error "out_of_range" else .ok z

/-- `tablet_aware_replication_strategy::parse_initial_tablets`: parse via
`std::stol`; any parse failure becomes a configuration error. The `long`
result is returned as a `size_t` (two's-complement conversion). -/
def parse_initial_tablets (val : String) : Except tablet_error Nat :=
  match stol val with
  | .ok z => .ok (z % (2 ^ 64 : Int)).toNat
  | .error _ => .error (.configuration_error "initial_tablets must be numeric")

/-- `tablet_aware_replication_strategy::validate_tablet_options`: for each
option whose key is the recognized `initial_tablets`, fail with a
configuration error when the tablets feature is disabled cluster-wide,
otherwise parse the value (failing with a configuration error when it is
not numeric). -/
def validate_tablet_options (tablets_enabled : Bool) (opts : List (String × String)) :
    Except tablet_error Unit :=
  match opts with
  | [] => .ok ()
  | (k, v) :: rest =>
    if k = "initial_tablets" then
      if !tablets_enabled then
        .error (.configuration_error "Tablet replication is not enabled")
      else
        match parse_initial_tablets v with
        | .error e => .error e
        | .ok _ => validate_tablet_options tablets_enabled rest
    else validate_tablet_options tablets_enabled rest

/-- `tablet_aware_replication_strategy::recognized_tablet_options`. -/
def recognized_tablet_options : List String := ["initial_tablets"]

/-- `locator::tablet_effective_replication_map`: a read-only view bound to
one table identity and one topology snapshot. The snapshot's host-identity
lookup capability (`token_metadata::get_host_id_if_known`) is modelled as
a function from endpoints to optional host identities. -/
structure effective_replication_map where
  table : table_id
  metadata : tablet_metadata
  host_of_endpoint : Nat → Option host_id

/-- `tablet_effective_replication_map::has_pending_ranges`: false when the
endpoint's host identity is unknown to the topology snapshot; otherwise
true iff some transition's pending replica lives on that host. -/
def effective_replication_map.has_pending_ranges (e : effective_replication_map)
    (endpoint : Nat) : Except tablet_error Bool :=
  match e.host_of_endpoint endpoint with
  | none => .ok false
  | some h =>
    match e.metadata.get_tablet_map e.table with
    | .error err => .error err
    | .ok tm => .ok (tm.transitions.any (fun p => p.2.pending_replica.host == h))

/-- The token-range splitter returned by
`tablet_effective_replication_map::make_splitter`: it holds the tablet map
and the id of the next tablet to emit (`_next`). -/
structure splitter where
  tmap : tablet_map
  next : Option Nat
deriving DecidableEq

/-- `splitter::reset`: seek to the tablet containing the position's token. -/
def splitter.reset (s : splitter) (pos : Token) : splitter :=
  { s with next := some (s.tmap.get_tablet_id pos) }

/-- `splitter::next_token`: emit the current tablet's last token and
advance to the next tablet; no result once past the last tablet. -/
def splitter.next_token (s : splitter) : Except tablet_error (Option Token × splitter) :=
  match s.next with
  | none => .ok (none, s)
  | some cur =>
    match s.tmap.get_last_token cur with
    | .error e => .error e
    | .ok t => .ok (some t, { s with next := s.tmap.next_tablet cur })

/-- Drives the splitter for at most `fuel` calls to `next_token`,
collecting the emitted tokens until the splitter reports no further
values. -/
def splitter.collect (s : splitter) : Nat → Except tablet_error (List Token)
  | 0 => .ok []
  | fuel + 1 =>
    match s.next_token with
    | .error e => .error e
    | .ok (none, _) => .ok []
    | .ok (some t, s') =>
      match s'.collect fuel with
      | .error e => .error e
      | .ok rest => .ok (t :: rest)

/-- A concrete one-tablet map, as produced by `tablet_map.make 1`. -/
def mapOne : tablet_map :=
  { tablets := List.replicate 1 { replicas := [] }, log2_tablets := 0, transitions := [] }

/-- A concrete four-tablet map, as produced by `tablet_map.make 4`. -/
def mapFour : tablet_map :=
  { tablets := List.replicate 4 { replicas := [] }, log2_tablets := 2, transitions := [] }

/-- A concrete one-tablet map whose tablet 0 has current replica
(host 1, shard 3) and a transition with pending replica (host 2, shard 1). -/
def mapWithTransition : tablet_map :=
  { tablets := [{ replicas := [{ host := 1, shard := 3 }] }],
    log2_tablets := 0,
    transitions := [(0, { next := [{ host := 1, shard := 3 }, { host := 2, shard := 1 }],
                          pending_replica := { host := 2, shard := 1 } })] }

/-- Concrete metadata holding `mapWithTransition` for table 0. -/
def mdWithTransition : tablet_metadata := { tablets := [(0, mapWithTransition)] }

/-- A concrete effective replication map over `mdWithTransition` whose
topology snapshot knows no endpoint at all. -/
def ermUnknownHosts : effective_replication_map :=
  { table := 0, metadata := mdWithTransition, host_of_endpoint := fun _ => none }

theorem log2ceilGo_pow (k : Nat) : ∀ fuel, 2 ^ k ≤ fuel → log2ceilGo (2 ^ k) fuel = k := by
  induction k with
  | zero =>
    intro fuel hf
    obtain ⟨fuel, rfl⟩ : ∃ f, fuel = f + 1 := ⟨fuel - 1, by omega⟩
    simp [log2ceilGo]
  | succ k ih =>
    intro fuel hf
    have h2 : (2 : Nat) ≤ 2 ^ (k + 1) := by
      calc (2 : Nat) = 2 ^ 1 := by norm_num
        _ ≤ 2 ^ (k + 1) := Nat.pow_le_pow_right (by omega) (by omega)
    obtain ⟨fuel, rfl⟩ : ∃ f, fuel = f + 1 := ⟨fuel - 1, by omega⟩
    have hn1 : ¬ (2 ^ (k + 1) ≤ 1) := by omega
    have hhalf : (2 ^ (k + 1) + 1) / 2 = 2 ^ k := by
      have : 2 ^ (k + 1) = 2 * 2 ^ k := by rw [Nat.pow_succ]; ring
      omega
    have hk : 2 ^ k ≤ fuel := by
      have : 2 ^ k < 2 ^ (k + 1) := Nat.pow_lt_pow_right (by omega) (by omega)
      omega
    simp only [log2ceilGo, if_neg hn1, hhalf, ih fuel hk]

theorem log2ceil_pow (k : Nat) : log2ceil (2 ^ k) = k :=
  log2ceilGo_pow k (2 ^ k) le_rfl

theorem make_ok_parts {count : Nat} {m : tablet_map}
    (hm : tablet_map.make count = .ok m) :
    m.tablets = List.replicate count { replicas := [] } ∧
      m.log2_tablets = log2ceil count ∧
      count = 2 ^ m.log2_tablets ∧
      m.tablet_count = count ∧
      m.transitions = [] := by
  rw [tablet_map.make] at hm
  split at hm
  · exact absurd hm (by simp)
  · rename_i hcond
    rw [not_ne_iff] at hcond
    cases hm
    refine ⟨rfl, rfl, ?_, ?_, rfl⟩
    · exact hcond
    · simp [tablet_map.tablet_count]

theorem check_tablet_id_ok (m : tablet_map) (id : Nat) (h : id < m.tablet_count) :
    m.check_tablet_id id = .ok () := by
  unfold tablet_map.check_tablet_id
  rw [if_neg (by omega)]

theorem get_last_token_ok (m : tablet_map) (id : Nat) (h : id < m.tablet_count) :
    m.get_last_token id = .ok (last_token_of_compaction_group m.log2_tablets id) := by
  unfold tablet_map.get_last_token
  rw [check_tablet_id_ok m id h]

/-- C9: constructing a `tablet_map` with a tablet count that is not a power
of two fails with the fatal internal-error condition; for every power of
two the construction succeeds and the map has exactly that many tablets. -/
theorem tablet_map_make_power_of_two (n : Nat) :
    ((∃ k, n = 2 ^ k) → ∃ m, tablet_map.make n = .ok m ∧ m.tablet_count = n) ∧
      ((∀ k, n ≠ 2 ^ k) →
        ∃ msg, tablet_map.make n = .error (.internal_error msg)) := by
  constructor
  · rintro ⟨k, rfl⟩
    refine ⟨{ tablets := List.replicate (2 ^ k) { replicas := [] },
              log2_tablets := log2ceil (2 ^ k), transitions := [] }, ?_, ?_⟩
    · rw [tablet_map.make]
      rw [if_neg (by rw [not_ne_iff, log2ceil_pow])]
    · simp [tablet_map.tablet_count]
  · intro hk
    refine ⟨"Tablet count not a power of 2", ?_⟩
    rw [tablet_map.make]
    rw [if_pos (hk (log2ceil n))]

/-- Witness for C9 at the concrete counts 4 (a power of two) and 6 (not a
power of two). -/
theorem tablet_map_make_power_of_two_witness :
    (∃ m, tablet_map.make 4 = .ok m ∧ m.tablet_count = 4) ∧
      (∃ msg, tablet_map.make 6 = .error (.internal_error msg)) := by
  constructor
  · exact (tablet_map_make_power_of_two 4).1 ⟨2, by norm_num⟩
  · refine (tablet_map_make_power_of_two 6).2 ?_
    intro k h
    rcases k with _ | _ | _ | k
    · omega
    · omega
    · omega
    · have : 2 ^ 3 ≤ 2 ^ (k + 3) := Nat.pow_le_pow_right (by omega) (by omega)
      omega

/-- C8: looking up a table identity absent from the metadata yields the
recoverable not-found condition, never the fatal internal-error condition
(and, the lookup being a pure function, the metadata is unchanged). -/
theorem tablet_metadata_absent_not_found (md : tablet_metadata) (id : table_id)
    (h : ∀ p ∈ md.tablets, p.1 ≠ id) :
    ∃ msg, md.get_tablet_map id = .error (.not_found msg) := by
  refine ⟨"Tablet map not found for table", ?_⟩
  unfold tablet_metadata.get_tablet_map
  have hf : md.tablets.find? (fun p => p.1 == id) = none := by
    rw [List.find?_eq_none]
    intro p hp
    simpa using h p hp
  rw [hf]

/-- Witness for C8: empty metadata and table identity 7. -/
theorem tablet_metadata_absent_not_found_witness :
    ∃ msg, (tablet_metadata.mk []).get_tablet_map 7 = .error (.not_found msg) :=
  tablet_metadata_absent_not_found (tablet_metadata.mk []) 7 (by simp)

/-- C10: `has_pending_ranges` returns false (without failing) for an
endpoint whose host identity is unknown to the topology snapshot,
regardless of the transitions present in the table's tablet map. -/
theorem has_pending_ranges_unknown_endpoint (e : effective_replication_map)
    (endpoint : Nat) (h : e.host_of_endpoint endpoint = none) :
    e.has_pending_ranges endpoint = .ok false := by
  unfold effective_replication_map.has_pending_ranges
  rw [h]

/-- Witness for C10: a replication map whose table does have a transition
but whose topology snapshot knows no endpoint. -/
theorem has_pending_ranges_unknown_endpoint_witness :
    ermUnknownHosts.host_of_endpoint 3 = none ∧
      mapWithTransition.transitions ≠ [] ∧
      ermUnknownHosts.has_pending_ranges 3 = .ok false :=
  ⟨rfl, by simp [mapWithTransition], has_pending_ranges_unknown_endpoint ermUnknownHosts 3 rfl⟩

/-- C3: `get_tablet_id` is monotone in the ring order: a smaller token is
never mapped to a larger tablet id. -/
theorem tablet_get_tablet_id_monotone (m : tablet_map) (t1 t2 : Token)
    (h : Token.lt t1 t2 = true) :
    m.get_tablet_id t1 ≤ m.get_tablet_id t2 := by
  unfold tablet_map.get_tablet_id compaction_group_of
  split
  · exact le_refl 0
  · cases t1 with
    | minimum => cases t2 <;> simp [Nat.zero_le]
    | key a =>
      cases t2 with
      | minimum => simp [Token.lt] at h
      | key b =>
        simp only [Token.lt, decide_eq_true_iff] at h
        simp only [Nat.shiftRight_eq_div_pow]
        exact Nat.div_le_div_right (Nat.le_of_lt h)

/-- Witness for C3 on `mapFour` with two concrete key tokens. -/
theorem tablet_get_tablet_id_monotone_witness :
    Token.lt (.key 0) (.key (2 ^ 63)) = true ∧
      mapFour.get_tablet_id (.key 0) ≤ mapFour.get_tablet_id (.key (2 ^ 63)) :=
  ⟨by decide, tablet_get_tablet_id_monotone mapFour (.key 0) (.key (2 ^ 63)) (by decide)⟩

/-- C5 (code bug evidence): `get_tablet_info` with an out-of-range id does
signal the invalid-id error, but `get_tablet_transition_info` with the same
out-of-range id returns a normal "no transition" result without any
validation, contradicting the claim and the header documentation of
`tablet_map::get_tablet_transition_info`. -/
theorem tablet_transition_info_no_check_eval :
    tablet_map.make 1 = .ok mapOne ∧
      mapOne.tablet_count = 1 ∧
      mapOne.get_tablet_transition_info 5 = none ∧
      mapOne.get_tablet_info 5 = .error (.logic_error "Invalid tablet id") := by
  refine ⟨rfl, rfl, rfl, rfl⟩

/-- C7 (counterexample): with the tablets feature enabled, the option value
"-1" — not a valid non-negative integer — is parsed successfully by
`std::stol`, so `validate_tablet_options` succeeds instead of failing with
a configuration error as the claim states. -/
theorem validate_tablet_options_negative_accepted :
    validate_tablet_options true [("initial_tablets", "-1")] = .ok () ∧
      stol "-1" = .ok (-1) ∧ ((-1 : Int) < 0) := by
  refine ⟨rfl, rfl, by norm_num⟩

/-- C7 (amended): `validate_tablet_options` on the recognized key succeeds
exactly when the tablets feature is enabled and the value parses as an
integer under `std::stol` semantics (sign allowed, trailing characters
ignored, value within the range of `long`); otherwise it fails with a
configuration error. In particular every valid non-negative in-range
integer value succeeds with the feature enabled, and the feature being
disabled or an unparseable value fails. -/
theorem validate_tablet_options_spec_amended (enabled : Bool) (v : String) :
    (validate_tablet_options enabled [("initial_tablets", v)] = .ok () ↔
      (enabled = true ∧ ∃ z, stol v = .ok z)) ∧
      ((enabled = false ∨ ∃ e, stol v = .error e) →
        ∃ msg, validate_tablet_options enabled [("initial_tablets", v)] =
          .error (.configuration_error msg)) := by
  cases enabled with
  | false =>
    have hval : validate_tablet_options false [("initial_tablets", v)] =
        .error (.configuration_error "Tablet replication is not enabled") := rfl
    constructor
    · rw [hval]
      simp
    · intro _
      exact ⟨"Tablet replication is not enabled", hval⟩
  | true =>
    cases h : stol v with
    | error e =>
      have hval : validate_tablet_options true [("initial_tablets", v)] =
          .error (.configuration_error "initial_tablets must be numeric") := by
        unfold validate_tablet_options parse_initial_tablets
        rw [if_pos rfl]
        simp [h]
      constructor
      · rw [hval]
        simp [h]
      · intro _
        exact ⟨"initial_tablets must be numeric", hval⟩
    | ok z =>
      have hval : validate_tablet_options true [("initial_tablets", v)] = .ok () := by
        unfold validate_tablet_options parse_initial_tablets
        rw [if_pos rfl]
        simp [h]
        rfl
      constructor
      · rw [hval]
        simp [h]
      · rintro (hf | ⟨e, he⟩)
        · exact absurd hf (by simp)
        · exact absurd he (by simp)

/-- Witness for the amended C7: success at enabled and "4", a configuration
error when the feature is disabled, and a configuration error for the
unparseable value "x". -/
theorem validate_tablet_options_spec_amended_witness :
    (validate_tablet_options true [("initial_tablets", "4")] = .ok () ↔
      (true = true ∧ ∃ z, stol "4" = .ok z)) ∧
      (∃ msg, validate_tablet_options false [("initial_tablets", "4")] =
        .error (.configuration_error msg)) ∧
      (∃ msg, validate_tablet_options true [("initial_tablets", "x")] =
        .error (.configuration_error msg)) :=
  ⟨(validate_tablet_options_spec_amended true "4").1,
    (validate_tablet_options_spec_amended false "4").2 (Or.inl rfl),
    (validate_tablet_options_spec_amended true "x").2 (Or.inr ⟨"invalid_argument", rfl⟩)⟩

/-- C2: `get_first_token` of the first tablet is the least value of the key
space (the space's minimum), and for every other valid tablet id it is the
successor of the previous tablet's last token. -/
theorem tablet_first_token_spec (m : tablet_map) :
    (m.get_first_token 0 = .ok first_token ∧
      (∀ n : Nat, Token.le first_token (.key n) = true)) ∧
      (∀ id, 0 < id → id < m.tablet_count →
        ∃ t, m.get_last_token (id - 1) = .ok t ∧
          m.get_first_token id = .ok (next_token t)) := by
  refine ⟨⟨?_, ?_⟩, ?_⟩
  · unfold tablet_map.get_first_token tablet_map.first_tablet
    rw [if_pos rfl]
  · intro n
    simp [first_token, Token.le]
  · intro id hpos hlt
    refine ⟨last_token_of_compaction_group m.log2_tablets (id - 1), ?_, ?_⟩
    · exact get_last_token_ok m (id - 1) (by omega)
    · unfold tablet_map.get_first_token
      rw [if_neg (by unfold tablet_map.first_tablet; omega)]
      rw [get_last_token_ok m (id - 1) (by omega)]
      rfl

/-- Witness for C2 on `mapFour` at tablet id 1. -/
theorem tablet_first_token_spec_witness :
    (mapFour.get_first_token 0 = .ok first_token ∧
      Token.le first_token (.key 17) = true) ∧
      (0 < 1 ∧ 1 < mapFour.tablet_count ∧
        ∃ t, mapFour.get_last_token 0 = .ok t ∧
          mapFour.get_first_token 1 = .ok (next_token t)) := by
  refine ⟨⟨(tablet_first_token_spec mapFour).1.1, (tablet_first_token_spec mapFour).1.2 17⟩,
    by decide, by decide, (tablet_first_token_spec mapFour).2 1 (by decide) (by decide)⟩

/-- C4: for a valid tablet id, `get_shard` returns the shard of the current
replica whose host matches when one exists (current assignment taking
precedence over any pending replica); otherwise the pending replica's shard
when the transition's pending replica lives on the host; otherwise no
result. -/
theorem tablet_get_shard_spec (m : tablet_map) (id : Nat) (h : host_id)
    (hid : id < m.tablet_count) :
    ((∃ r ∈ (m.tablets.getD id { replicas := [] }).replicas, r.host = h) →
        ∃ r ∈ (m.tablets.getD id { replicas := [] }).replicas,
          r.host = h ∧ m.get_shard id h = .ok (some r.shard)) ∧
      ((∀ r ∈ (m.tablets.getD id { replicas := [] }).replicas, r.host ≠ h) →
        ∀ ti, m.get_tablet_transition_info id = some ti →
          ti.pending_replica.host = h →
          m.get_shard id h = .ok (some ti.pending_replica.shard)) ∧
      ((∀ r ∈ (m.tablets.getD id { replicas := [] }).replicas, r.host ≠ h) →
        (∀ ti, m.get_tablet_transition_info id = some ti →
          ti.pending_replica.host ≠ h) →
        m.get_shard id h = .ok none) := by
  have hinfo : m.get_tablet_info id = .ok (m.tablets.getD id { replicas := [] }) := by
    unfold tablet_map.get_tablet_info
    rw [check_tablet_id_ok m id hid]
  refine ⟨?_, ?_, ?_⟩
  · rintro ⟨r, hr, hrh⟩
    have hsome : ((m.tablets.getD id { replicas := [] }).replicas.find?
        (fun x => x.host == h)).isSome := by
      rw [List.find?_isSome]
      exact ⟨r, hr, by simp [hrh]⟩
    obtain ⟨r', hr'⟩ := Option.isSome_iff_exists.mp hsome
    refine ⟨r', List.mem_of_find?_eq_some hr', ?_, ?_⟩
    · have := List.find?_some hr'
      simpa using this
    · simp only [tablet_map.get_shard, hinfo]
      rw [hr']
  · intro hnone ti hti htih
    have hfind : (m.tablets.getD id { replicas := [] }).replicas.find?
        (fun x => x.host == h) = none := by
      rw [List.find?_eq_none]
      intro x hx
      simpa using hnone x hx
    simp only [tablet_map.get_shard, hinfo, hfind, hti]
    rw [if_pos (by simp [htih])]
  · intro hnone hti
    have hfind : (m.tablets.getD id { replicas := [] }).replicas.find?
        (fun x => x.host == h) = none := by
      rw [List.find?_eq_none]
      intro x hx
      simpa using hnone x hx
    cases hcase : m.get_tablet_transition_info id with
    | none => simp only [tablet_map.get_shard, hinfo, hfind, hcase]
    | some ti =>
      simp only [tablet_map.get_shard, hinfo, hfind, hcase]
      rw [if_neg (by simp [hti ti hcase])]

/-- Witness for C4 on `mapWithTransition` at tablet 0 and host 2 (the host
of the pending replica only). -/
theorem tablet_get_shard_spec_witness :
    (0 < mapWithTransition.tablet_count) ∧
      (((∃ r ∈ (mapWithTransition.tablets.getD 0 { replicas := [] }).replicas, r.host = 2) →
        ∃ r ∈ (mapWithTransition.tablets.getD 0 { replicas := [] }).replicas,
          r.host = 2 ∧ mapWithTransition.get_shard 0 2 = .ok (some r.shard)) ∧
      ((∀ r ∈ (mapWithTransition.tablets.getD 0 { replicas := [] }).replicas, r.host ≠ 2) →
        ∀ ti, mapWithTransition.get_tablet_transition_info 0 = some ti →
          ti.pending_replica.host = 2 →
          mapWithTransition.get_shard 0 2 = .ok (some ti.pending_replica.shard)) ∧
      ((∀ r ∈ (mapWithTransition.tablets.getD 0 { replicas := [] }).replicas, r.host ≠ 2) →
        (∀ ti, mapWithTransition.get_tablet_transition_info 0 = some ti →
          ti.pending_replica.host ≠ 2) →
        mapWithTransition.get_shard 0 2 = .ok none)) :=
  ⟨by decide, tablet_get_shard_spec mapWithTransition 0 2 (by decide)⟩

theorem compaction_group_lt (log2 n : Nat) (hn : n < 2 ^ 64) :
    compaction_group_of log2 (.key n) < 2 ^ log2 := by
  unfold compaction_group_of
  split
  · positivity
  · rename_i hlog
    simp only
    rw [Nat.shiftRight_eq_div_pow]
    have hsum : (64 : Nat) ≤ (64 - log2) + log2 := by omega
    have hlt : n < 2 ^ (64 - log2) * 2 ^ log2 := by
      calc n < 2 ^ 64 := hn
        _ ≤ 2 ^ ((64 - log2) + log2) := Nat.pow_le_pow_right (by omega) hsum
        _ = 2 ^ (64 - log2) * 2 ^ log2 := by rw [Nat.pow_add]
    exact Nat.div_lt_of_lt_mul hlt

theorem compaction_group_bounds (log2 n : Nat) (hlog : log2 ≠ 0) :
    compaction_group_of log2 (.key n) * 2 ^ (64 - log2) ≤ n ∧
      n < (compaction_group_of log2 (.key n) + 1) * 2 ^ (64 - log2) := by
  unfold compaction_group_of
  rw [if_neg hlog]
  simp only
  rw [Nat.shiftRight_eq_div_pow]
  have hpos : 0 < 2 ^ (64 - log2) := by positivity
  constructor
  · exact Nat.div_mul_le_self n _
  · have h := Nat.lt_div_mul_add (a := n) hpos
    rw [Nat.succ_mul]
    omega

theorem last_token_key (log2 gid : Nat) :
    last_token_of_compaction_group log2 gid = .key ((gid + 1) * 2 ^ (64 - log2) - 1) := by
  unfold last_token_of_compaction_group
  rw [Nat.shiftLeft_eq]

theorem range_of_contains_key (lo hi n : Nat) :
    (token_range.mk { value := .key lo, inclusive := false }
        { value := .key hi, inclusive := true }).contains (.key n) = true ↔
      lo < n ∧ n ≤ hi := by
  simp [token_range.contains, Token.lt, Token.le]

theorem range_from_min_contains_key (hi n : Nat) :
    (token_range.mk { value := minimum_token, inclusive := false }
        { value := .key hi, inclusive := true }).contains (.key n) = true ↔
      n ≤ hi := by
  simp [token_range.contains, Token.lt, Token.le, minimum_token]

/-- C1: for a map constructed with a power-of-two tablet count, every token
of the key space maps to a tablet id in `[0, tablet_count)` and lies within
that tablet's token range. -/
theorem tablet_get_tablet_id_range_correct (count : Nat) (m : tablet_map) (n : Nat)
    (hm : tablet_map.make count = .ok m) (hn : n < 2 ^ 64) :
    m.get_tablet_id (.key n) < m.tablet_count ∧
      ∃ r, m.get_token_range (m.get_tablet_id (.key n)) = .ok r ∧
        r.contains (.key n) = true := by
  obtain ⟨-, -, hpow, hcount, -⟩ := make_ok_parts hm
  have hidlt : m.get_tablet_id (.key n) < m.tablet_count := by
    show compaction_group_of m.log2_tablets (.key n) < m.tablet_count
    rw [hcount, hpow]
    exact compaction_group_lt m.log2_tablets n hn
  refine ⟨hidlt, ?_⟩
  show ∃ r, m.get_token_range (compaction_group_of m.log2_tablets (.key n)) = .ok r ∧
    r.contains (.key n) = true
  have hidlt' : compaction_group_of m.log2_tablets (.key n) < m.tablet_count := hidlt
  have hpow_pos : 0 < 2 ^ (64 - m.log2_tablets) := by positivity
  by_cases hz : compaction_group_of m.log2_tablets (.key n) = 0
  · -- first tablet: range is (minimum_token, last_token(0)]
    rw [hz]
    refine ⟨{ left := { value := minimum_token, inclusive := false },
              right := { value := .key (1 * 2 ^ (64 - m.log2_tablets) - 1),
                         inclusive := true } }, ?_, ?_⟩
    · unfold tablet_map.get_token_range tablet_map.first_tablet
      rw [if_pos rfl, get_last_token_ok m 0 (by omega), last_token_key]
    · rw [range_from_min_contains_key]
      by_cases hlog : m.log2_tablets = 0
      · -- single-tablet case: bound is 2^64 - 1
        rw [hlog]
        omega
      · -- group(n) = 0 forces n < 2^(64 - log2)
        have hb := (compaction_group_bounds m.log2_tablets n hlog).2
        rw [hz] at hb
        omega
  · -- later tablet: range is (last_token(gid-1), last_token(gid)]
    have hlog : m.log2_tablets ≠ 0 := by
      intro h0
      apply hz
      unfold compaction_group_of
      rw [if_pos h0]
    have hb := compaction_group_bounds m.log2_tablets n hlog
    have hsub : compaction_group_of m.log2_tablets (.key n) - 1 + 1 =
        compaction_group_of m.log2_tablets (.key n) := by omega
    refine ⟨{ left := { value := .key (compaction_group_of m.log2_tablets (.key n) *
                          2 ^ (64 - m.log2_tablets) - 1),
                        inclusive := false },
              right := { value := .key ((compaction_group_of m.log2_tablets (.key n) + 1) *
                          2 ^ (64 - m.log2_tablets) - 1),
                         inclusive := true } }, ?_, ?_⟩
    · unfold tablet_map.get_token_range tablet_map.first_tablet
      rw [if_neg (by omega), get_last_token_ok m _ (by omega),
        get_last_token_ok m _ (by omega), last_token_key, last_token_key, hsub]
    · rw [range_of_contains_key]
      constructor
      · -- gid * 2^(64-log2) - 1 < n
        have hpos2 : 0 < compaction_group_of m.log2_tablets (.key n) *
            2 ^ (64 - m.log2_tablets) :=
          Nat.mul_pos (by omega) hpow_pos
        exact Nat.lt_of_lt_of_le (Nat.sub_lt hpos2 Nat.one_pos) hb.1
      · -- n ≤ (gid+1) * 2^(64-log2) - 1
        exact Nat.le_pred_of_lt hb.2

/-- Witness for C1: `mapFour` (built by `tablet_map.make 4`) and the token
`key 5`. -/
theorem tablet_get_tablet_id_range_correct_witness :
    mapFour.get_tablet_id (.key 5) < mapFour.tablet_count ∧
      ∃ r, mapFour.get_token_range (mapFour.get_tablet_id (.key 5)) = .ok r ∧
        r.contains (.key 5) = true :=
  tablet_get_tablet_id_range_correct 4 mapFour 5 rfl (by norm_num)

theorem collect_exhausted (m : tablet_map) (fuel : Nat) :
    splitter.collect { tmap := m, next := none } fuel = .ok [] := by
  cases fuel <;> rfl

theorem collect_from_cur (m : tablet_map) (fuel : Nat) : ∀ cur,
    cur < m.tablet_count → m.tablet_count - cur ≤ fuel →
    splitter.collect { tmap := m, next := some cur } fuel =
      .ok ((List.range' cur (m.tablet_count - cur)).map
        (last_token_of_compaction_group m.log2_tablets)) := by
  induction fuel with
  | zero =>
    intro cur hcur hfuel
    omega
  | succ fuel ih =>
    intro cur hcur hfuel
    have hlast := get_last_token_ok m cur hcur
    by_cases hend : cur = m.last_tablet
    · have hone : m.tablet_count - cur = 1 := by
        unfold tablet_map.last_tablet at hend
        omega
      rw [hone]
      simp only [splitter.collect, splitter.next_token, hlast, tablet_map.next_tablet,
        if_pos hend, collect_exhausted]
      rfl
    · have hcur1 : cur + 1 < m.tablet_count := by
        unfold tablet_map.last_tablet at hend
        omega
      obtain ⟨k, hk⟩ : ∃ k, m.tablet_count - cur = k + 1 := ⟨m.tablet_count - cur - 1, by omega⟩
      rw [hk]
      simp only [splitter.collect, splitter.next_token, hlast, tablet_map.next_tablet,
        if_neg hend]
      rw [ih (cur + 1) hcur1 (by omega)]
      have hk' : m.tablet_count - (cur + 1) = k := by omega
      rw [hk']
      rfl

theorem last_token_strict_mono (log2 : Nat) {i j : Nat} (h : i < j) :
    Token.lt (last_token_of_compaction_group log2 i)
      (last_token_of_compaction_group log2 j) = true := by
  rw [last_token_key, last_token_key]
  simp only [Token.lt, decide_eq_true_iff]
  have hpos : 0 < 2 ^ (64 - log2) := by positivity
  have hlt : (i + 1) * 2 ^ (64 - log2) < (j + 1) * 2 ^ (64 - log2) :=
    (Nat.mul_lt_mul_right hpos).mpr (by omega)
  have h1 : 1 ≤ (i + 1) * 2 ^ (64 - log2) := Nat.mul_pos (by omega) hpos
  omega

theorem pairwise_lt_range'_aux (n : Nat) : ∀ s, (List.range' s n).Pairwise (· < ·) := by
  induction n with
  | zero => intro s; simp
  | succ n ih =>
    intro s
    rw [List.range'_succ]
    refine List.Pairwise.cons ?_ (ih (s + 1))
    intro b hb
    rw [List.mem_range'_1] at hb
    omega

/-- C6: after `reset(pos)`, driving the splitter to exhaustion yields
exactly the ascending sequence of `get_last_token(id)` for `id` from the
tablet containing `pos` through the last tablet, no matter how much extra
fuel is supplied (so no further values follow), and independently of the
splitter's previous state (so a later `reset` restarts the sequence from
the new position). -/
theorem tablet_splitter_spec (count : Nat) (m : tablet_map) (n : Nat) (s0 : splitter)
    (fuel : Nat) (hm : tablet_map.make count = .ok m) (hs : s0.tmap = m)
    (hn : n < 2 ^ 64)
    (hfuel : m.tablet_count - m.get_tablet_id (.key n) ≤ fuel) :
    (s0.reset (.key n)).collect fuel =
      .ok ((List.range' (m.get_tablet_id (.key n))
          (m.tablet_count - m.get_tablet_id (.key n))).map
        (last_token_of_compaction_group m.log2_tablets)) ∧
      (∀ i ∈ List.range' (m.get_tablet_id (.key n))
          (m.tablet_count - m.get_tablet_id (.key n)),
        m.get_last_token i = .ok (last_token_of_compaction_group m.log2_tablets i)) ∧
      List.Pairwise (fun a b => Token.lt a b = true)
        ((List.range' (m.get_tablet_id (.key n))
            (m.tablet_count - m.get_tablet_id (.key n))).map
          (last_token_of_compaction_group m.log2_tablets)) := by
  obtain ⟨-, -, hpow, hcount, -⟩ := make_ok_parts hm
  have hidlt : m.get_tablet_id (.key n) < m.tablet_count := by
    show compaction_group_of m.log2_tablets (.key n) < m.tablet_count
    rw [hcount, hpow]
    exact compaction_group_lt m.log2_tablets n hn
  have hreset : s0.reset (.key n) = { tmap := m, next := some (m.get_tablet_id (.key n)) } := by
    unfold splitter.reset
    rw [hs]
  rw [hreset]
  refine ⟨?_, ?_, ?_⟩
  · exact collect_from_cur m fuel (m.get_tablet_id (.key n)) hidlt hfuel
  · intro i hi
    rw [List.mem_range'_1] at hi
    exact get_last_token_ok m i (by omega)
  · exact List.Pairwise.map _ (fun a b hab => last_token_strict_mono m.log2_tablets hab)
      (pairwise_lt_range'_aux _ _)

/-- Witness for C6: `mapFour` reset to the token `key 0` (tablet 0) with
fuel 4. -/
theorem tablet_splitter_spec_witness :
    ((splitter.mk mapFour none).reset (.key 0)).collect 4 =
      .ok ((List.range' (mapFour.get_tablet_id (.key 0))
          (mapFour.tablet_count - mapFour.get_tablet_id (.key 0))).map
        (last_token_of_compaction_group mapFour.log2_tablets)) ∧
      (∀ i ∈ List.range' (mapFour.get_tablet_id (.key 0))
          (mapFour.tablet_count - mapFour.get_tablet_id (.key 0)),
        mapFour.get_last_token i =
          .ok (last_token_of_compaction_group mapFour.log2_tablets i)) ∧
      List.Pairwise (fun a b => Token.lt a b = true)
        ((List.range' (mapFour.get_tablet_id (.key 0))
            (mapFour.tablet_count - mapFour.get_tablet_id (.key 0))).map
          (last_token_of_compaction_group mapFour.log2_tablets)) :=
  tablet_splitter_spec 4 mapFour 0 (splitter.mk mapFour none) 4 rfl rfl
    (by norm_num) (by decide)

end Tablets
